import Mathlib

/-!
Verification of the `Matrix3x2` 2D affine-transform module
(`src/matrix3x2.js`).

The matrix stores six coefficients in a `Float32Array` buffer.  Under the
row-affine reading used by `apply`,

  x' = buffer[0]*x + buffer[1]*y + buffer[2]
  y' = buffer[3]*x + buffer[4]*y + buffer[5]

i.e. with the `[a,b,c,d,e,f]` naming: `a = buffer[0]`, `b = buffer[1]`,
`c = buffer[2]`, `d = buffer[3]`, `e = buffer[4]`, `f = buffer[5]`.

The operations are translated statement-by-statement from the source as
pure state-passing functions, polymorphic in the scalar type `α` so that
the same definitions can be instantiated at `ℚ` (exact arithmetic, the
idealised reading of the float arithmetic for the algebraic claims), at
`ℝ` (for the claim involving `Math.cos`/`Math.sin` at `π/2`), and at a
JavaScript-number model `JSF` with infinities and NaN (for the singular
inversion claim).  Rounding of finite float values is not modelled:
equalities of the exact formulas and the finite/non-finite classification
are what the theorems assert.
-/

/-- The six-coefficient buffer of `Matrix3x2` (`buffer = new Float32Array(6)`).
Field `bN` is `buffer[N]`. -/
structure Matrix3x2 (α : Type) where
  b0 : α
  b1 : α
  b2 : α
  b3 : α
  b4 : α
  b5 : α
  deriving DecidableEq, Repr

/-- The external `Vector2` collaborator: a mutable pair of coordinates. -/
structure Vector2 (α : Type) where
  x : α
  y : α
  deriving DecidableEq, Repr

namespace Matrix3x2

variable {α : Type} [Add α] [Mul α] [Sub α] [Neg α] [Div α] [Zero α] [One α]

/-- `new Matrix3x2()`: the buffer is zero-filled. -/
def new : Matrix3x2 α := ⟨0, 0, 0, 0, 0, 0⟩

/-- `set(other)`: copies all six coefficient values of `other` into `this`
(`this.buffer.set(other.buffer)` copies element-wise) and returns `this`. -/
def set (_self other : Matrix3x2 α) : Matrix3x2 α :=
  ⟨other.b0, other.b1, other.b2, other.b3, other.b4, other.b5⟩

/-- `apply(vector)`: reads `_x = vector.x` and `_y = vector.y` first, then
writes `vector.x = b0*_x + b1*_y + b2` and `vector.y = b3*_x + b4*_y + b5`
and returns the vector. -/
def apply (m : Matrix3x2 α) (vector : Vector2 α) : Vector2 α :=
  let _x := vector.x
  let _y := vector.y
  ⟨m.b0 * _x + m.b1 * _y + m.b2, m.b3 * _x + m.b4 * _y + m.b5⟩

/-- `identity()`: `buffer[0] = buffer[4] = 1`, the rest `0`. -/
def identity : Matrix3x2 α := ⟨1, 0, 0, 0, 1, 0⟩

/-- `translate(x, y)`: `buffer[2] += buffer[0]*x + buffer[1]*y` and
`buffer[5] += buffer[3]*x + buffer[4]*y`. -/
def translate (m : Matrix3x2 α) (x y : α) : Matrix3x2 α :=
  { m with
    b2 := m.b2 + (m.b0 * x + m.b1 * y)
    b5 := m.b5 + (m.b3 * x + m.b4 * y) }

/-- `translateAbsolute(x, y)`: `buffer[2] += x` and `buffer[5] += y`. -/
def translateAbsolute (m : Matrix3x2 α) (x y : α) : Matrix3x2 α :=
  { m with b2 := m.b2 + x, b5 := m.b5 + y }

/-- `rotate(angle)`: the source computes `cos = Math.cos(angle)` and
`sin = Math.sin(angle)` and then rewrites the buffer from the saved
pre-call values; the two computed trigonometric values are taken here as
the arguments `co` and `si`. -/
def rotate (m : Matrix3x2 α) (co si : α) : Matrix3x2 α :=
  let _00 := m.b0
  let _10 := m.b1
  let _20 := m.b2
  let _01 := m.b3
  let _11 := m.b4
  let _21 := m.b5
  ⟨_00 * co - _01 * si, _10 * co - _11 * si, _20 * co - _21 * si,
   _00 * si + _01 * co, _10 * si + _11 * co, _20 * si + _21 * co⟩

/-- `scale(scale)`: multiplies all six buffer entries by the factor. -/
def scale (m : Matrix3x2 α) (s : α) : Matrix3x2 α :=
  ⟨m.b0 * s, m.b1 * s, m.b2 * s, m.b3 * s, m.b4 * s, m.b5 * s⟩

/-- `multiply(other)` with `other` a distinct matrix: saves the six pre-call
values of `this.buffer` into `_00.._21`, then writes

  buffer[0] = _00*o[0] + _01*o[1]
  buffer[1] = _10*o[0] + _11*o[1]
  buffer[2] = _20*o[0] + _21*o[1] + o[2]
  buffer[3] = _00*o[3] + _01*o[4]
  buffer[4] = _10*o[3] + _11*o[4]
  buffer[5] = _20*o[3] + _21*o[4] + o[5]

where `o = other.buffer` is unaffected by the writes. -/
def multiply (m other : Matrix3x2 α) : Matrix3x2 α :=
  let _00 := m.b0
  let _10 := m.b1
  let _20 := m.b2
  let _01 := m.b3
  let _11 := m.b4
  let _21 := m.b5
  ⟨_00 * other.b0 + _01 * other.b1,
   _10 * other.b0 + _11 * other.b1,
   _20 * other.b0 + _21 * other.b1 + other.b2,
   _00 * other.b3 + _01 * other.b4,
   _10 * other.b3 + _11 * other.b4,
   _20 * other.b3 + _21 * other.b4 + other.b5⟩

/-- `m.multiply(m)` with the receiver itself as the argument: the six
assignments of `multiply` executed in source order with `other.buffer`
aliasing `this.buffer`, so each read of `other.buffer[i]` sees the value
already written by an earlier assignment (reads in the same statement as
the write to that slot see the old value).  Statement order in the source:
slots 0, 1, 2, 3, 4, 5.  After writing slot 0, the reads of
`other.buffer[0]` in statements 2–3 see the new value `n0`; likewise
`other.buffer[1]` in statement 3 sees `n1`, `other.buffer[3]` in
statements 5–6 sees `n3`, and `other.buffer[4]` in statement 6 sees `n4`;
slots 2 and 5 are each read only in the statement that writes them. -/
def multiplySelf (m : Matrix3x2 α) : Matrix3x2 α :=
  let _00 := m.b0
  let _10 := m.b1
  let _20 := m.b2
  let _01 := m.b3
  let _11 := m.b4
  let _21 := m.b5
  let n0 := _00 * m.b0 + _01 * m.b1
  let n1 := _10 * n0 + _11 * m.b1
  let n2 := _20 * n0 + _21 * n1 + m.b2
  let n3 := _00 * m.b3 + _01 * m.b4
  let n4 := _10 * n3 + _11 * m.b4
  let n5 := _20 * n3 + _21 * n4 + m.b5
  ⟨n0, n1, n2, n3, n4, n5⟩

/-- `invert()`: saves the six pre-call values, computes
`i = 1 / (_00*_11 - _10*_01)` and rewrites the buffer. -/
def invert (m : Matrix3x2 α) : Matrix3x2 α :=
  let _00 := m.b0
  let _10 := m.b1
  let _20 := m.b2
  let _01 := m.b3
  let _11 := m.b4
  let _21 := m.b5
  let i := 1 / (_00 * _11 - _10 * _01)
  ⟨i * _11, i * -_10, i * (_10 * _21 - _20 * _11),
   i * -_01, i * _00, i * (_20 * _01 - _00 * _21)⟩

/-- The `x` getter: returns `buffer[2]`. -/
def getX (m : Matrix3x2 α) : α := m.b2

/-- The `y` getter: returns `buffer[5]`. -/
def getY (m : Matrix3x2 α) : α := m.b5

end Matrix3x2

/-!
## A model of JavaScript numbers for the singular-inversion claim

`JSF` models the values a JavaScript float computation can produce:
finite values (kept exact as rationals — rounding is not modelled),
the two infinities, and NaN.  Signed zero is not modelled, so the sign
of an infinite result of a division by zero is not faithful in every
case; the theorems stated over `JSF` only assert the finite/non-finite
classification, which signed zero never changes.
The arithmetic follows IEEE 754 / JavaScript semantics:
NaN propagates, `∞ + (−∞) = NaN`, `∞ · 0 = NaN`, `x / 0 = ±∞` for
finite `x ≠ 0`, `0 / 0 = NaN`, `∞ / ∞ = NaN`, `x / ∞ = 0`.
-/

/-- A JavaScript number: finite (exact), infinite (`inf true` = `+∞`,
`inf false` = `−∞`), or NaN. -/
inductive JSF where
  | num : ℚ → JSF
  | inf : Bool → JSF
  | nan : JSF
  deriving DecidableEq, Repr

namespace JSF

/-- Finite / non-finite classification (`Number.isFinite`). -/
def finite : JSF → Bool
  | num _ => true
  | _ => false

instance : Zero JSF := ⟨num 0⟩

instance : One JSF := ⟨num 1⟩

/-- Negation: flips the sign of an infinity, propagates NaN. -/
def jneg : JSF → JSF
  | num q => num (-q)
  | inf b => inf (!b)
  | nan => nan

instance : Neg JSF := ⟨jneg⟩

/-- Addition: NaN propagates; infinities of opposite sign give NaN. -/
def jadd : JSF → JSF → JSF
  | nan, _ => nan
  | _, nan => nan
  | num q, num r => num (q + r)
  | inf b, num _ => inf b
  | num _, inf b => inf b
  | inf b, inf c => if b = c then inf b else nan

instance : Add JSF := ⟨jadd⟩

/-- Subtraction: `x − y = x + (−y)` (exact in IEEE up to signed zero). -/
def jsub (x y : JSF) : JSF := jadd x (jneg y)

instance : Sub JSF := ⟨jsub⟩

/-- Multiplication: NaN propagates; `±∞ · 0 = NaN`; otherwise signs
multiply. -/
def jmul : JSF → JSF → JSF
  | nan, _ => nan
  | _, nan => nan
  | num q, num r => num (q * r)
  | inf b, num q => if q = 0 then nan else if 0 < q then inf b else inf (!b)
  | num q, inf b => if q = 0 then nan else if 0 < q then inf b else inf (!b)
  | inf b, inf c => if b = c then inf true else inf false

instance : Mul JSF := ⟨jmul⟩

/-- Division: `q / 0 = ±∞` for `q ≠ 0` (sign of `q`; `0` is treated as
`+0`), `0 / 0 = NaN`, `x / ±∞ = 0`, `±∞ / ±∞ = NaN`, NaN propagates. -/
def jdiv : JSF → JSF → JSF
  | nan, _ => nan
  | _, nan => nan
  | num q, num r =>
      if r = 0 then (if q = 0 then nan else if 0 < q then inf true else inf false)
      else num (q / r)
  | num _, inf _ => num 0
  | inf b, num r => if 0 ≤ r then inf b else inf (!b)
  | inf _, inf _ => nan

instance : Div JSF := ⟨jdiv⟩

end JSF

/-- All six coefficients of a `JSF` matrix are non-finite. -/
def Matrix3x2.allNonFinite (m : Matrix3x2 JSF) : Prop :=
  m.b0.finite = false ∧ m.b1.finite = false ∧ m.b2.finite = false ∧
  m.b3.finite = false ∧ m.b4.finite = false ∧ m.b5.finite = false

/-- Both coordinates of a `JSF` vector are non-finite. -/
def Vector2.nonFinite (v : Vector2 JSF) : Prop :=
  v.x.finite = false ∧ v.y.finite = false

/-!
## A store model for reference semantics

`set`/`translate` mutate a `Matrix3x2` object in place.  To state the
copy-independence claim about two distinct matrix objects, the heap is
modelled as a map from object references (naturals) to buffer contents;
each method call updates the slot of its receiver.
-/

/-- A heap of matrix objects, indexed by reference. -/
def Store (α : Type) := ℕ → Matrix3x2 α

/-- `b.set(a)` as a heap operation on the references `rb` (receiver) and
`ra` (argument): the receiver's slot is overwritten with a copy of the
argument's current coefficient values (`Float32Array.prototype.set`
copies element-wise). -/
def Store.setOp {α : Type} (s : Store α) (rb ra : ℕ) : Store α :=
  Function.update s rb (Matrix3x2.set (s rb) (s ra))

/-- `a.translate(x, y)` as a heap operation on the reference `ra`. -/
def Store.translateOp {α : Type} [Add α] [Mul α] (s : Store α) (ra : ℕ)
    (x y : α) : Store α :=
  Function.update s ra (Matrix3x2.translate (s ra) x y)

/-- Modelled from the spec's words (§4 `multiply`), NOT from the source:
with self's pre-call coefficients `[a,b,c,d,e,f] = [b0..b5]` and other's
`[a2,b2,c2,d2,e2,f2] = [o.b0..o.b5]`, the spec states
`a' = a·a2 + d·b2`, `b' = a·d2 + d·e2`, `c' = a·c2 + d·f2 + c`,
`d' = b·a2 + e·b2`, `e' = b·d2 + e·e2`, `f' = b·c2 + e·f2 + f`.
This definition exists only to be compared against the source's
`Matrix3x2.multiply`. -/
def Matrix3x2.multiplyClaimed {α : Type} [Add α] [Mul α] (m o : Matrix3x2 α) :
    Matrix3x2 α :=
  ⟨m.b0 * o.b0 + m.b3 * o.b1,
   m.b0 * o.b3 + m.b3 * o.b4,
   m.b0 * o.b2 + m.b3 * o.b5 + m.b2,
   m.b1 * o.b0 + m.b4 * o.b1,
   m.b1 * o.b3 + m.b4 * o.b4,
   m.b1 * o.b2 + m.b4 * o.b5 + m.b5⟩

/-!
## Helper lemmas on the JavaScript-number model
-/

namespace JSF

/-- A sum with a non-finite left operand is non-finite. -/
theorem finite_add_left {x : JSF} (y : JSF) (hx : finite x = false) :
    finite (x + y) = false := by
  show finite (jadd x y) = false
  cases x with
  | num q => simp [finite] at hx
  | nan => cases y <;> rfl
  | inf b =>
    cases y with
    | num r => rfl
    | nan => rfl
    | inf c => by_cases h : b = c <;> simp [jadd, h, finite]

/-- Any product with a non-finite left factor is non-finite. -/
theorem finite_mul_left {x : JSF} (y : JSF) (hx : finite x = false) :
    finite (x * y) = false := by
  show finite (jmul x y) = false
  cases x with
  | num q => simp [finite] at hx
  | nan => cases y <;> rfl
  | inf b =>
    cases y with
    | nan => rfl
    | inf c => by_cases h : b = c <;> simp [jmul, h, finite]
    | num q =>
      rcases lt_trichotomy q 0 with h | h | h
      · simp [jmul, h.ne, not_lt.2 h.le, finite]
      · simp [jmul, h, finite]
      · simp [jmul, h.ne', h, finite]

/-- Multiplication of finite values is exact. -/
theorem num_mul (q r : ℚ) : num q * num r = num (q * r) := rfl

/-- Subtraction of finite values is exact. -/
theorem num_sub (q r : ℚ) : num q - num r = num (q - r) := by
  show jsub _ _ = _
  simp [jsub, jadd, jneg, sub_eq_add_neg]

/-- `1 / 0` is `+∞` in JavaScript (`0` is `+0` here). -/
theorem one_div_num_zero : (1 : JSF) / num 0 = inf true := by decide

end JSF

/-!
## Claim theorems
-/

/-- Claim C1, counterexample: with self = ⟨2,0,0,0,2,0⟩ (uniform scale by 2)
and other = ⟨1,0,1,0,1,0⟩ (translation by (1,0)), the source's `multiply`
produces `c' = 1` while the claimed formulas give `c' = 2`, so `multiply`
does not implement the claimed six formulas. -/
theorem multiply_claim_counterexample :
    Matrix3x2.multiply (⟨2, 0, 0, 0, 2, 0⟩ : Matrix3x2 ℚ) ⟨1, 0, 1, 0, 1, 0⟩ ≠
      Matrix3x2.multiplyClaimed (⟨2, 0, 0, 0, 2, 0⟩ : Matrix3x2 ℚ) ⟨1, 0, 1, 0, 1, 0⟩ := by
  norm_num [Matrix3x2.multiply, Matrix3x2.multiplyClaimed, Matrix3x2.mk.injEq]

/-- Claim C1, amended: `multiply(other)` with pre-call self coefficients
`[a,b,c,d,e,f]` and other coefficients `[a2,b2,c2,d2,e2,f2]` sets self's
coefficients to exactly `a' = a·a2 + d·b2`, `b' = b·a2 + e·b2`,
`c' = c·a2 + f·b2 + c2`, `d' = a·d2 + d·e2`, `e' = b·d2 + e·e2`,
`f' = c·d2 + f·e2 + f2` (composition that applies SELF first, then other),
and returns self. -/
theorem multiply_formula_amended (m o : Matrix3x2 ℚ) (p : Vector2 ℚ) :
    m.multiply o =
      ⟨m.b0 * o.b0 + m.b3 * o.b1,
       m.b1 * o.b0 + m.b4 * o.b1,
       m.b2 * o.b0 + m.b5 * o.b1 + o.b2,
       m.b0 * o.b3 + m.b3 * o.b4,
       m.b1 * o.b3 + m.b4 * o.b4,
       m.b2 * o.b3 + m.b5 * o.b4 + o.b5⟩ ∧
    (m.multiply o).apply p = o.apply (m.apply p) := by
  constructor
  · rfl
  · simp only [Matrix3x2.multiply, Matrix3x2.apply, Vector2.mk.injEq]
    constructor <;> ring_nf

/-- Claim C2, counterexample: with T1 = ⟨1,0,1,0,1,0⟩ (translate (1,0)),
T2 = ⟨2,0,0,0,2,0⟩ (scale 2), T3 = identity and p = (0,0), the chained
product applied to p gives (2,0), while applying T3 then T2 then T1 gives
(1,0); the two are not equal even exactly. -/
theorem compose_order_counterexample :
    (((⟨1, 0, 1, 0, 1, 0⟩ : Matrix3x2 ℚ).multiply ⟨2, 0, 0, 0, 2, 0⟩).multiply
        Matrix3x2.identity).apply ⟨0, 0⟩ ≠
      (⟨1, 0, 1, 0, 1, 0⟩ : Matrix3x2 ℚ).apply
        ((⟨2, 0, 0, 0, 2, 0⟩ : Matrix3x2 ℚ).apply (Matrix3x2.identity.apply ⟨0, 0⟩)) := by
  norm_num [Matrix3x2.multiply, Matrix3x2.apply, Matrix3x2.identity, Vector2.mk.injEq]

/-- Claim C2, amended: for all transforms T1, T2, T3 and every point p,
`T1.multiply(T2).multiply(T3)` applied to p yields the same result as
applying T1 to p first, then T2, then T3
(i.e. `T3.apply(T2.apply(T1.apply(p)))`). -/
theorem compose_chain_apply (t1 t2 t3 : Matrix3x2 ℚ) (p : Vector2 ℚ) :
    ((t1.multiply t2).multiply t3).apply p =
      t3.apply (t2.apply (t1.apply p)) := by
  simp only [Matrix3x2.multiply, Matrix3x2.apply, Vector2.mk.injEq]
  constructor <;> ring_nf

/-- Claim C3: `apply` maps a point (x,y) to `x' = a·x + b·y + c` and
`y' = d·x + e·y + f`, both computed from the original pre-mutation
coordinates, and returns the (mutated) point. -/
theorem apply_formula (m : Matrix3x2 ℚ) (p : Vector2 ℚ) :
    m.apply p =
      ⟨m.b0 * p.x + m.b1 * p.y + m.b2, m.b3 * p.x + m.b4 * p.y + m.b5⟩ := rfl

/-- Claim C4: `invert()` replaces the coefficients with exactly
`a' = i·e`, `b' = −i·b`, `c' = i·(b·f − c·e)`, `d' = −i·d`, `e' = i·a`,
`f' = i·(c·d − a·f)` where `i = 1/det` and `det = a·e − b·d`; and when
`det ≠ 0` the result is the exact algebraic inverse of the affine
mapping (applying the inverse after the original recovers the point). -/
theorem invert_formula_and_inverse (m : Matrix3x2 ℚ) :
    m.invert =
      ⟨1 / (m.b0 * m.b4 - m.b1 * m.b3) * m.b4,
       -(1 / (m.b0 * m.b4 - m.b1 * m.b3) * m.b1),
       1 / (m.b0 * m.b4 - m.b1 * m.b3) * (m.b1 * m.b5 - m.b2 * m.b4),
       -(1 / (m.b0 * m.b4 - m.b1 * m.b3) * m.b3),
       1 / (m.b0 * m.b4 - m.b1 * m.b3) * m.b0,
       1 / (m.b0 * m.b4 - m.b1 * m.b3) * (m.b2 * m.b3 - m.b0 * m.b5)⟩ ∧
    (m.b0 * m.b4 - m.b1 * m.b3 ≠ 0 →
      ∀ p : Vector2 ℚ, m.invert.apply (m.apply p) = p) := by
  constructor
  · simp only [Matrix3x2.invert, Matrix3x2.mk.injEq]
    refine ⟨by ring_nf, by ring_nf, by ring_nf, by ring_nf, by ring_nf, by ring_nf⟩
  · intro h p
    obtain ⟨x, y⟩ := p
    simp only [Matrix3x2.invert, Matrix3x2.apply, Vector2.mk.injEq]
    constructor <;> field_simp <;> ring_nf

/-- Claim C4, witness: the theorem instantiated at the matrix
⟨1,2,3,4,5,6⟩ (determinant −3) and the point (7,8). -/
theorem invert_formula_and_inverse_witness :
    (1 : ℚ) * 5 - 2 * 4 ≠ 0 ∧
    (⟨1, 2, 3, 4, 5, 6⟩ : Matrix3x2 ℚ).invert.apply
        ((⟨1, 2, 3, 4, 5, 6⟩ : Matrix3x2 ℚ).apply ⟨7, 8⟩) = ⟨7, 8⟩ :=
  ⟨by norm_num,
   (invert_formula_and_inverse ⟨1, 2, 3, 4, 5, 6⟩).2 (by norm_num) ⟨7, 8⟩⟩

/-- Claim C8: for a non-singular transform and any point, applying the
transform and then applying an inverted copy of it (a copy made with
`new Matrix3x2().set(T)`, then `invert`) recovers the point exactly. -/
theorem invert_apply_roundtrip (t : Matrix3x2 ℚ) (p : Vector2 ℚ)
    (h : t.b0 * t.b4 - t.b1 * t.b3 ≠ 0) :
    ((Matrix3x2.new.set t).invert).apply ((Matrix3x2.new.set t).apply p) = p := by
  obtain ⟨x, y⟩ := p
  simp only [Matrix3x2.new, Matrix3x2.set, Matrix3x2.invert, Matrix3x2.apply,
    Vector2.mk.injEq]
  constructor <;> field_simp <;> ring_nf

/-- Claim C8, witness: the theorem instantiated at the matrix
⟨2,0,3,0,2,4⟩ (determinant 4) and the point (1,1). -/
theorem invert_apply_roundtrip_witness :
    (2 : ℚ) * 2 - 0 * 0 ≠ 0 ∧
    ((Matrix3x2.new.set (⟨2, 0, 3, 0, 2, 4⟩ : Matrix3x2 ℚ)).invert).apply
        ((Matrix3x2.new.set (⟨2, 0, 3, 0, 2, 4⟩ : Matrix3x2 ℚ)).apply ⟨1, 1⟩) = ⟨1, 1⟩ :=
  ⟨by norm_num, invert_apply_roundtrip ⟨2, 0, 3, 0, 2, 4⟩ ⟨1, 1⟩ (by norm_num)⟩

/-- Claim C6: `translate(dx,dy)` updates only the offset terms, as
`c += a·dx + b·dy` and `f += d·dx + e·dy`, leaving a, b, d, e unchanged;
and starting from identity, `rotate(π/2)` then `translate(1,0)` then
`apply((0,0))` yields (0,1). -/
theorem translate_local_frame :
    (∀ (m : Matrix3x2 ℝ) (dx dy : ℝ),
      m.translate dx dy =
        ⟨m.b0, m.b1, m.b2 + (m.b0 * dx + m.b1 * dy),
         m.b3, m.b4, m.b5 + (m.b3 * dx + m.b4 * dy)⟩) ∧
    ((Matrix3x2.identity.rotate (Real.cos (Real.pi / 2))
        (Real.sin (Real.pi / 2))).translate 1 0).apply ⟨0, 0⟩ = ⟨0, 1⟩ := by
  constructor
  · intro m dx dy
    rfl
  · simp [Matrix3x2.identity, Matrix3x2.rotate, Matrix3x2.translate,
      Matrix3x2.apply, Real.cos_pi_div_two, Real.sin_pi_div_two]

/-- Claim C7: `scale(factor)` multiplies all six coefficients — including
the translation terms c and f — by the factor; and starting from identity,
`translate(2,0)` then `scale(3)` then `apply((0,0))` yields (6,0). -/
theorem scale_all_six :
    (∀ (m : Matrix3x2 ℚ) (s : ℚ),
      m.scale s = ⟨m.b0 * s, m.b1 * s, m.b2 * s, m.b3 * s, m.b4 * s, m.b5 * s⟩) ∧
    ((Matrix3x2.identity.translate 2 0).scale 3).apply ⟨0, 0⟩ = (⟨6, 0⟩ : Vector2 ℚ) := by
  refine ⟨fun m s => rfl, ?_⟩
  norm_num [Matrix3x2.identity, Matrix3x2.translate, Matrix3x2.scale,
    Matrix3x2.apply, Vector2.mk.injEq]

/-- Claim C9: in the heap model, after `B.set(A)` with A and B distinct
objects, B's slot holds a copy of A's six coefficient values, and a
subsequent `A.translate(dx,dy)` leaves B's slot unchanged. -/
theorem set_copy_independence (s : Store ℚ) (ra rb : ℕ) (h : ra ≠ rb)
    (dx dy : ℚ) :
    Store.setOp s rb ra rb =
      ⟨(s ra).b0, (s ra).b1, (s ra).b2, (s ra).b3, (s ra).b4, (s ra).b5⟩ ∧
    Store.translateOp (Store.setOp s rb ra) ra dx dy rb =
      Store.setOp s rb ra rb := by
  constructor
  · simp [Store.setOp, Matrix3x2.set]
  · simp [Store.translateOp, Function.update_noteq (Ne.symm h)]

/-- Claim C9, witness: the theorem instantiated at the all-identity heap,
references 0 (for A) and 1 (for B), and the translation (5,5). -/
theorem set_copy_independence_witness :
    (0 : ℕ) ≠ 1 ∧
    (Store.setOp (fun _ => (Matrix3x2.identity : Matrix3x2 ℚ)) 1 0 1 =
        ⟨(Matrix3x2.identity : Matrix3x2 ℚ).b0, (Matrix3x2.identity : Matrix3x2 ℚ).b1,
         (Matrix3x2.identity : Matrix3x2 ℚ).b2, (Matrix3x2.identity : Matrix3x2 ℚ).b3,
         (Matrix3x2.identity : Matrix3x2 ℚ).b4, (Matrix3x2.identity : Matrix3x2 ℚ).b5⟩ ∧
      Store.translateOp
          (Store.setOp (fun _ => (Matrix3x2.identity : Matrix3x2 ℚ)) 1 0) 0 5 5 1 =
        Store.setOp (fun _ => (Matrix3x2.identity : Matrix3x2 ℚ)) 1 0 1) :=
  ⟨by decide,
   set_copy_independence (fun _ => Matrix3x2.identity) 0 1 (by decide) 5 5⟩

/-- Claim C10: multiplying a matrix by itself (the receiver aliasing the
argument) differs from multiplying by an equal but distinct copy: for
m = ⟨1,1,0,1,0,0⟩, the aliased call yields ⟨2,2,0,1,1,0⟩ while the call
on a distinct copy with the same coefficients yields ⟨2,1,0,1,1,0⟩. -/
theorem multiply_self_aliasing :
    Matrix3x2.multiplySelf (⟨1, 1, 0, 1, 0, 0⟩ : Matrix3x2 ℚ) = ⟨2, 2, 0, 1, 1, 0⟩ ∧
    Matrix3x2.multiply (⟨1, 1, 0, 1, 0, 0⟩ : Matrix3x2 ℚ) ⟨1, 1, 0, 1, 0, 0⟩ =
      ⟨2, 1, 0, 1, 1, 0⟩ ∧
    Matrix3x2.multiplySelf (⟨1, 1, 0, 1, 0, 0⟩ : Matrix3x2 ℚ) ≠
      Matrix3x2.multiply (⟨1, 1, 0, 1, 0, 0⟩ : Matrix3x2 ℚ) ⟨1, 1, 0, 1, 0, 0⟩ := by
  refine ⟨?_, ?_, ?_⟩ <;>
    norm_num [Matrix3x2.multiplySelf, Matrix3x2.multiply, Matrix3x2.mk.injEq]

/-- Claim C5: `invert()` on a singular matrix (`a·e − b·d = 0`, all entries
finite) silently produces six non-finite coefficients (infinities/NaN)
rather than signaling failure, and these propagate into any subsequent
`apply`: both coordinates of the result are non-finite for every finite
input point.  This covers in particular `a=1, b=0, d=0, e=0`. -/
theorem invert_singular_nonfinite (a b c d e f : ℚ) (h : a * e - b * d = 0) :
    Matrix3x2.allNonFinite
      (Matrix3x2.invert
        ⟨JSF.num a, JSF.num b, JSF.num c, JSF.num d, JSF.num e, JSF.num f⟩) ∧
    ∀ x y : ℚ,
      Vector2.nonFinite
        ((Matrix3x2.invert
            ⟨JSF.num a, JSF.num b, JSF.num c, JSF.num d, JSF.num e, JSF.num f⟩).apply
          ⟨JSF.num x, JSF.num y⟩) := by
  have hi : (1 : JSF) / (JSF.num a * JSF.num e - JSF.num b * JSF.num d) =
      JSF.inf true := by
    rw [JSF.num_mul, JSF.num_mul, JSF.num_sub, h]
    exact JSF.one_div_num_zero
  have hM : Matrix3x2.invert
      (⟨JSF.num a, JSF.num b, JSF.num c, JSF.num d, JSF.num e, JSF.num f⟩ :
        Matrix3x2 JSF) =
      ⟨JSF.inf true * JSF.num e,
       JSF.inf true * -JSF.num b,
       JSF.inf true * (JSF.num b * JSF.num f - JSF.num c * JSF.num e),
       JSF.inf true * -JSF.num d,
       JSF.inf true * JSF.num a,
       JSF.inf true * (JSF.num c * JSF.num d - JSF.num a * JSF.num f)⟩ := by
    simp only [Matrix3x2.invert]
    rw [hi]
  constructor
  · rw [hM]
    exact ⟨JSF.finite_mul_left _ rfl, JSF.finite_mul_left _ rfl,
           JSF.finite_mul_left _ rfl, JSF.finite_mul_left _ rfl,
           JSF.finite_mul_left _ rfl, JSF.finite_mul_left _ rfl⟩
  · intro x y
    rw [hM]
    simp only [Vector2.nonFinite, Matrix3x2.apply]
    constructor
    · exact JSF.finite_add_left _
        (JSF.finite_add_left _ (JSF.finite_mul_left _ (JSF.finite_mul_left _ rfl)))
    · exact JSF.finite_add_left _
        (JSF.finite_add_left _ (JSF.finite_mul_left _ (JSF.finite_mul_left _ rfl)))

/-- Claim C5, witness: the theorem instantiated at the singular matrix
`a=1, b=0, c=0, d=0, e=0, f=0` and the point (3,4). -/
theorem invert_singular_nonfinite_witness :
    (1 : ℚ) * 0 - 0 * 0 = 0 ∧
    Matrix3x2.allNonFinite
      (Matrix3x2.invert
        ⟨JSF.num 1, JSF.num 0, JSF.num 0, JSF.num 0, JSF.num 0, JSF.num 0⟩) ∧
    Vector2.nonFinite
      ((Matrix3x2.invert
          ⟨JSF.num 1, JSF.num 0, JSF.num 0, JSF.num 0, JSF.num 0, JSF.num 0⟩).apply
        ⟨JSF.num 3, JSF.num 4⟩) :=
  ⟨by norm_num,
   (invert_singular_nonfinite 1 0 0 0 0 0 (by norm_num)).1,
   (invert_singular_nonfinite 1 0 0 0 0 0 (by norm_num)).2 3 4⟩
